import Mathlib

/-!
Shallow embedding of the escrow-backed elimination-lottery program
(Anchor/Rust source under `programs/lottery`, `solana/programs/lottery` and
`lottery_v3.3/programs/lottery`; the three trees are fragments of the same
program and are modelled as one).

Conventions of the embedding:
* `u64` / `u8` quantities are `Nat`; the checked arithmetic of the source
  (`checked_add`, `checked_sub`, `checked_div`) is `Option`-valued, and a
  `None` aborts the whole instruction, mirroring the transactional
  all-or-nothing semantics of the runtime.
* Unchecked built-in `u8`/`u64` arithmetic is modelled with the
  overflow-checked build profile that Anchor programs use
  (`overflow-checks = true`): an overflowing `+`/`-`/`*` aborts the
  instruction, as does a division/remainder by zero in any profile.
* Pubkeys are `Nat`; timestamps are `Int`.
* Each instruction handler is a function `... → World → Except LotteryError World`;
  the Anchor account constraints (which run before the handler body) are the
  first checks of the function, in account-struct order.
* The SPL-token transfers performed by CPI move the `escrow` /
  `treasury_balance` components of the `World`; a transfer of more than the
  source balance fails, aborting the instruction.
-/

namespace TgLottery

/-- Decidable equality of instruction results, so that concrete runs can be
checked by `decide`. -/
instance {ε α : Type} [DecidableEq ε] [DecidableEq α] : DecidableEq (Except ε α) :=
  fun x y =>
    match x, y with
    | .ok a, .ok b =>
      if h : a = b then .isTrue (by rw [h]) else .isFalse (by intro hc; cases hc; exact h rfl)
    | .error a, .error b =>
      if h : a = b then .isTrue (by rw [h]) else .isFalse (by intro hc; cases hc; exact h rfl)
    | .ok _, .error _ => .isFalse (by intro hc; cases hc)
    | .error _, .ok _ => .isFalse (by intro hc; cases hc)

/-- Number of values of `u64`: checked `u64` arithmetic fails at this bound. -/
def u64Lim : Nat := 2 ^ 64

/-- `u64::checked_add`. -/
def checked_add (a b : Nat) : Option Nat :=
  if a + b < u64Lim then some (a + b) else none

/-- `u64::checked_sub`. -/
def checked_sub (a b : Nat) : Option Nat :=
  if b ≤ a then some (a - b) else none

/-- `u64::checked_div`. -/
def checked_div (a b : Nat) : Option Nat :=
  if b = 0 then none else some (a / b)

/-- `u64::from_le_bytes` on a list of byte values (little-endian). -/
def u64_from_le_bytes (bs : List Nat) : Nat :=
  bs.foldr (fun b acc => acc * 256 + b) 0

/-- Game lifecycle states (`GameStatus` in `state.rs`). -/
inductive GameStatus where
  | Created
  | Joining
  | NumberSelection
  | Playing
  | Distributing
  | Completed
  | Cancelled
deriving DecidableEq, Repr

/-- Number range for the game (`NumberRange` in `state.rs`). -/
structure NumberRange where
  min : Nat
  max : Nat
deriving DecidableEq, Repr

/-- Player record (`Player` in `state.rs`). -/
structure Player where
  wallet : Nat
  telegram_id : String
  selected_number : Option Nat
  eliminated_round : Option Nat
  is_winner : Bool
  prize_claimed : Bool
  prize_amount : Nat
  joined_at : Int
deriving DecidableEq, Repr

/-- Game account (`GameState` in `state.rs`); the fields the instructions
read or write.  `game_id`, mint and account pubkeys are fixed per game and
elided (the model is per game). -/
structure GameState where
  authority : Nat
  entry_fee : Nat
  max_players : Nat
  winner_count : Nat
  state : GameStatus
  prize_pool : Nat
  treasury_fee : Nat
  number_range : NumberRange
  created_at : Int
  started_at : Option Int
  completed_at : Option Int
  payment_deadline : Int
  current_round : Nat
  drawn_numbers : List Nat
  vrf_oracle : Nat
  vrf_request_pending : Bool
  pending_round : Nat
deriving DecidableEq, Repr

/-- Treasury account (`TreasuryState` in `state.rs`). -/
structure TreasuryState where
  authority : Nat
  total_collected : Nat
  total_distributed : Nat
  pending_withdrawal : Nat
  fee_percentage : Nat
deriving DecidableEq, Repr

/-- Per-round randomness account (`VrfResult` in `state.rs`). -/
structure VrfResult where
  round : Nat
  random_value : List Nat
  proof : List Nat
  drawn_number : Nat
  used : Bool
  timestamp : Int
deriving DecidableEq, Repr

/-- The state a single game touches: its game account, its player list, the
global treasury account, the per-round `VrfResult` accounts created so far,
and the token balances of the game escrow and the treasury token account. -/
structure World where
  game : GameState
  players : List Player
  treasury : TreasuryState
  vrf_results : List VrfResult
  escrow : Nat
  treasury_balance : Nat
deriving DecidableEq, Repr

/-- Error conditions (`LotteryError` in `errors.rs`, plus the runtime-level
`AccountAlreadyInUse` / `AccountNotInitialized` failures of `init` and of
loading a non-existent account, and `TokenTransferFailed` for a CPI token
transfer exceeding the source balance). -/
inductive LotteryError where
  | GameIdTooLong
  | GameFull
  | InvalidGameState
  | PaymentDeadlineExpired
  | PlayerAlreadyJoined
  | Unauthorized
  | NoWinnersFound
  | PrizeAlreadyClaimed
  | NotAWinner
  | GameNotCancelled
  | RefundAlreadyProcessed
  | InsufficientTreasuryBalance
  | InvalidFeePercentage
  | InvalidEntryFee
  | InvalidWinnerCount
  | TokenTransferFailed
  | ArithmeticOverflow
  | PlayerNotInGame
  | NumberAlreadySelected
  | PlayerEliminated
  | NumberAlreadyTaken
  | NumberOutOfRange
  | InvalidRound
  | InvalidVrfProof
  | VrfAlreadyUsed
  | NoPrizeToCliam
  | CannotCancelGame
  | ReasonTooLong
  | CannotCancelActiveGame
  | NoFundsToWithdraw
  | NoVrfRequestPending
  | VrfNotFulfilled
  | AccountAlreadyInUse
  | AccountNotInitialized
deriving DecidableEq, Repr

/-- Mutate the first element satisfying `p` (the effect of finding a player
with `iter_mut().find(..)` and assigning through the mutable reference). -/
def updateFirst (p : α → Bool) (f : α → α) : List α → List α
  | [] => []
  | x :: xs => if p x then f x :: xs else x :: updateFirst p f xs

/-- Number of non-eliminated players
(`players.iter().filter(|p| p.eliminated_round.is_none()).count()`). -/
def activeCount (ps : List Player) : Nat :=
  (ps.filter (fun p => p.eliminated_round.isNone)).length

/-- `calculate_prize_distribution` from `programs/lottery/src/utils.rs`:
checked subtraction of the fee, then checked division by the winner count. -/
def calculate_prize_distribution (total_prize_pool treasury_fee winner_count : Nat) :
    Except LotteryError Nat :=
  match checked_sub total_prize_pool treasury_fee with
  | none => .error .ArithmeticOverflow
  | some distributable =>
    match checked_div distributable winner_count with
    | none => .error .ArithmeticOverflow
    | some prize_per_winner => .ok prize_per_winner

/-- `generate_number_from_random` from `programs/lottery/src/utils.rs`.
`none` models a panic: a slice of fewer than 8 bytes, a `u8` underflow in
`max - min`, or `max - min + 1` leaving `u8` (for `min = 0, max = 255` the
expression `(max - min + 1) as u64` aborts: overflow of the `u8` addition in
a checked build, and a wrapped range of `0` making `random_u64 % range` a
division by zero otherwise).  The `as u8` truncating cast of
`(random_u64 % range) as u8` is the `% 256`. -/
def generate_number_from_random (random_bytes : List Nat) (min max : Nat) :
    Option Nat :=
  if random_bytes.length < 8 then none
  else
    let random_u64 := u64_from_le_bytes (random_bytes.take 8)
    if min ≤ max then
      if max - min + 1 ≤ 255 then
        some ((random_u64 % (max - min + 1)) % 256 + min)
      else none
    else none

/-- `initialize` handler (`programs/lottery/src/instructions/initialize.rs`):
creates the global treasury account.  The handler validates the fee
percentage and writes `authority`, `treasury_token_account`,
`fee_percentage`, `total_collected = 0` and `pending_withdrawal = 0`; it
never writes `total_distributed`, which stays at the `0` the runtime
zero-initialises fresh account data to. -/
def init_treasury (treasury_authority fee_percentage : Nat) :
    Except LotteryError TreasuryState :=
  if ¬ (0 < fee_percentage ∧ fee_percentage ≤ 50) then .error .InvalidFeePercentage
  else
    .ok { authority := treasury_authority
          total_collected := 0
          total_distributed := 0
          pending_withdrawal := 0
          fee_percentage := fee_percentage }

/-- `create_game` handler (`solana/programs/lottery/src/instructions/create_game.rs`).
Validates the id length, fee and player/winner bounds, then initialises the
game account; the number range is `{ min: 1, max: max_players * 2 }`
(`max_players ≤ 100`, so the `u8` product does not overflow), the payment
deadline `now + minutes * 60`, and the state ends at `Joining`. -/
def create_game (authority vrf_oracle : Nat) (game_id : String)
    (entry_fee max_players winner_count payment_deadline_minutes : Nat)
    (now : Int) : Except LotteryError GameState :=
  if ¬ (game_id.length ≤ 16) then .error .GameIdTooLong
  else if ¬ (0 < entry_fee) then .error .InvalidEntryFee
  else if ¬ (2 ≤ max_players ∧ max_players ≤ 100) then .error .InvalidWinnerCount
  else if ¬ (0 < winner_count ∧ winner_count < max_players) then .error .InvalidWinnerCount
  else
    .ok { authority := authority
          entry_fee := entry_fee
          max_players := max_players
          winner_count := winner_count
          state := GameStatus.Joining
          prize_pool := 0
          treasury_fee := 0
          number_range := { min := 1, max := max_players * 2 }
          created_at := now
          started_at := none
          completed_at := none
          payment_deadline := now + payment_deadline_minutes * 60
          current_round := 0
          drawn_numbers := []
          vrf_oracle := vrf_oracle
          vrf_request_pending := false
          pending_round := 0 }

/-- `join_game` handler (`solana/programs/lottery/src/instructions/join_game.rs`).
Account constraint: state `Joining`.  Checks deadline, capacity and
duplicate wallet; transfers the entry fee into escrow; appends the player;
`prize_pool += entry_fee` and `treasury_fee += entry_fee / 10` (both
checked); when the roster becomes full, moves to `NumberSelection` and
records the start time. -/
def join_game (now : Int) (wallet : Nat) (telegram_id : String) (w : World) :
    Except LotteryError World :=
  if w.game.state ≠ GameStatus.Joining then .error .InvalidGameState
  else if ¬ (now ≤ w.game.payment_deadline) then .error .PaymentDeadlineExpired
  else if ¬ (w.players.length < w.game.max_players) then .error .GameFull
  else if w.players.any (fun p => p.wallet == wallet) then .error .PlayerAlreadyJoined
  else
    match checked_add w.game.prize_pool w.game.entry_fee with
    | none => .error .ArithmeticOverflow
    | some pool' =>
      match checked_div w.game.entry_fee 10 with
      | none => .error .ArithmeticOverflow
      | some fee_amount =>
        match checked_add w.game.treasury_fee fee_amount with
        | none => .error .ArithmeticOverflow
        | some tf' =>
          let new_player : Player :=
            { wallet := wallet
              telegram_id := telegram_id
              selected_number := none
              eliminated_round := none
              is_winner := false
              prize_claimed := false
              prize_amount := 0
              joined_at := now }
          let players' := w.players ++ [new_player]
          let full := players'.length = w.game.max_players
          .ok { w with
                game := { w.game with
                          prize_pool := pool'
                          treasury_fee := tf'
                          state := if full then GameStatus.NumberSelection else w.game.state
                          started_at := if full then some now else w.game.started_at }
                players := players'
                escrow := w.escrow + w.game.entry_fee }

/-- `select_number` handler (`programs/lottery/src/instructions/select_number.rs`).
Account constraint: state `NumberSelection`.  Checks the range, finds the
caller in the roster, rejects if already selected or eliminated, and
rejects if any other player (the filter is on `p.wallet != caller` only,
not on elimination status) holds the number; on success records it. -/
def select_number (wallet number : Nat) (w : World) : Except LotteryError World :=
  if w.game.state ≠ GameStatus.NumberSelection then .error .InvalidGameState
  else if ¬ (w.game.number_range.min ≤ number ∧ number ≤ w.game.number_range.max) then
    .error .NumberOutOfRange
  else
    match w.players.find? (fun p => p.wallet == wallet) with
    | none => .error .PlayerNotInGame
    | some player =>
      if player.selected_number.isSome then .error .NumberAlreadySelected
      else if player.eliminated_round.isSome then .error .PlayerEliminated
      else if w.players.any (fun p => p.selected_number == some number && p.wallet != wallet) then
        .error .NumberAlreadyTaken
      else
        .ok { w with
              players := updateFirst (fun p => p.wallet == wallet)
                (fun p => { p with selected_number := some number }) w.players }

/-- Modelled from the spec: the `NumberSelection → Playing` transition.  The
spec (§4.1) makes it an "external authority action only", decoupled from the
all-numbers-selected signal, but no instruction for it appears under `src/`
(only the comment in `select_number.rs`: "State transition should be done by
authority through a separate instruction").  Modelled as the game authority
setting the state to `Playing` from `NumberSelection`. -/
def start_game (auth : Nat) (w : World) : Except LotteryError World :=
  if auth ≠ w.game.authority then .error .Unauthorized
  else if w.game.state ≠ GameStatus.NumberSelection then .error .InvalidGameState
  else .ok { w with game := { w.game with state := GameStatus.Playing } }

/-- `submit_vrf` handler (`lottery_v3.3/programs/lottery/src/instructions/submit_vrf.rs`).
Account constraints: signer is the configured oracle; state `Playing`;
`init` of the per-round `VrfResult` account fails if one already exists for
this round.  The handler requires `round == current_round + 1` (a `u8` sum:
it aborts at `current_round = 255`) and a proof length in `[64, 256]`,
derives the drawn number from the first 8 bytes of the random value, stores
the result, sets `current_round = round` and appends the drawn number. -/
def submit_vrf (oracle round : Nat) (random_value proof : List Nat) (now : Int)
    (w : World) : Except LotteryError World :=
  if oracle ≠ w.game.vrf_oracle then .error .Unauthorized
  else if w.game.state ≠ GameStatus.Playing then .error .InvalidGameState
  else if w.vrf_results.any (fun r => r.round == round) then .error .AccountAlreadyInUse
  else if ¬ (w.game.current_round + 1 ≤ 255) then .error .ArithmeticOverflow
  else if round ≠ w.game.current_round + 1 then .error .InvalidRound
  else if ¬ (64 ≤ proof.length ∧ proof.length ≤ 256) then .error .InvalidVrfProof
  else
    let random_u64 := u64_from_le_bytes (random_value.take 8)
    if ¬ (w.game.number_range.min ≤ w.game.number_range.max) then .error .ArithmeticOverflow
    else if ¬ (w.game.number_range.max - w.game.number_range.min + 1 ≤ 255) then
      .error .ArithmeticOverflow
    else
      let range := w.game.number_range.max - w.game.number_range.min + 1
      let drawn_number := (random_u64 % range) % 256 + w.game.number_range.min
      .ok { w with
            game := { w.game with
                      current_round := round
                      drawn_numbers := w.game.drawn_numbers ++ [drawn_number] }
            vrf_results := w.vrf_results ++
              [{ round := round, random_value := random_value, proof := proof
                 drawn_number := drawn_number, used := false, timestamp := now }] }

/-- `request_orao_vrf` handler (`solana/programs/lottery/src/instructions/request_orao_vrf.rs`).
Account constraint: state `Playing` (the payer is any signer).  The handler
requires `round == current_round + 1`, issues the oracle CPI request, then
sets `vrf_request_pending = true` and `pending_round = round`.  Note: no
check of `vrf_request_pending` is performed before requesting. -/
def request_orao_vrf (round : Nat) (w : World) : Except LotteryError World :=
  if w.game.state ≠ GameStatus.Playing then .error .InvalidGameState
  else if ¬ (w.game.current_round + 1 ≤ 255) then .error .ArithmeticOverflow
  else if round ≠ w.game.current_round + 1 then .error .InvalidRound
  else
    .ok { w with
          game := { w.game with vrf_request_pending := true, pending_round := round } }

/-- `fulfill_orao_vrf` handler (`solana/programs/lottery/src/instructions/fulfill_orao_vrf.rs`).
Account constraints: state `Playing`, `vrf_request_pending == true`,
`pending_round == round`, and `init` of the per-round `VrfResult` account
(fails if one exists for this round).  The handler requires the oracle
randomness to be available (`oracle_value`, the `randomness.get_value()`
read, is `none` while unfulfilled), derives the drawn number exactly as
`submit_vrf` does, sets `current_round = round`, appends the drawn number
and clears the pending pair. -/
def fulfill_orao_vrf (round : Nat) (oracle_value : Option (List Nat)) (now : Int)
    (w : World) : Except LotteryError World :=
  if w.game.state ≠ GameStatus.Playing then .error .InvalidGameState
  else if w.game.vrf_request_pending ≠ true then .error .NoVrfRequestPending
  else if w.game.pending_round ≠ round then .error .InvalidRound
  else if w.vrf_results.any (fun r => r.round == round) then .error .AccountAlreadyInUse
  else
    match oracle_value with
    | none => .error .VrfNotFulfilled
    | some random_value =>
      let random_u64 := u64_from_le_bytes (random_value.take 8)
      if ¬ (w.game.number_range.min ≤ w.game.number_range.max) then .error .ArithmeticOverflow
      else if ¬ (w.game.number_range.max - w.game.number_range.min + 1 ≤ 255) then
        .error .ArithmeticOverflow
      else
        let range := w.game.number_range.max - w.game.number_range.min + 1
        let drawn_number := (random_u64 % range) % 256 + w.game.number_range.min
        .ok { w with
              game := { w.game with
                        current_round := round
                        drawn_numbers := w.game.drawn_numbers ++ [drawn_number]
                        vrf_request_pending := false
                        pending_round := 0 }
              vrf_results := w.vrf_results ++
                [{ round := round, random_value := random_value, proof := []
                   drawn_number := drawn_number, used := false, timestamp := now }] }

/-- `process_elimination` handler (`solana/programs/lottery/src/instructions/process_elimination.rs`).
Account constraints: signer is the game authority; state `Playing`; the
per-round `VrfResult` account must exist and be unused.  The handler
requires `round` to match both the result's round and the game's current
round, marks the result used, and sets `eliminated_round = round` on every
active player whose selected number equals the drawn number. -/
def process_elimination (auth round : Nat) (w : World) : Except LotteryError World :=
  if auth ≠ w.game.authority then .error .Unauthorized
  else if w.game.state ≠ GameStatus.Playing then .error .InvalidGameState
  else
    match w.vrf_results.find? (fun r => r.round == round) with
    | none => .error .AccountNotInitialized
    | some vr =>
      if vr.used then .error .VrfAlreadyUsed
      else if ¬ (round = vr.round ∧ round = w.game.current_round) then .error .InvalidRound
      else
        let drawn_number := vr.drawn_number
        let players' := w.players.map (fun p =>
          if p.eliminated_round.isNone ∧ p.selected_number = some drawn_number then
            { p with eliminated_round := some round }
          else p)
        .ok { w with
              players := players'
              vrf_results := updateFirst (fun r => r.round == round)
                (fun r => { r with used := true }) w.vrf_results }

/-- The winner-marking loop of `complete_game`: iterate the active players in
roster order and mark the first `k` of them winners with prize `ppw`
(`for (i, winner) in winners.iter_mut().enumerate() { if i < actual { .. } }`). -/
def markWinners (k ppw : Nat) : List Player → List Player
  | [] => []
  | p :: rest =>
    if p.eliminated_round.isNone ∧ 0 < k then
      { p with is_winner := true, prize_amount := ppw } :: markWinners (k - 1) ppw rest
    else
      p :: markWinners k ppw rest

/-- `complete_game` handler (`solana/programs/lottery/src/instructions/complete_game.rs`).
Account constraints: signer is the game authority; state `Playing`.  The
handler requires at least one non-eliminated player, computes
`actual_winner_count = min(winners.len(), winner_count)`,
`distributable = prize_pool − treasury_fee` (checked) and
`prize_per_winner = distributable / actual_winner_count` (checked), marks
the first `actual_winner_count` active players winners, transfers the
treasury fee from escrow to the treasury token account, adds it to
`total_collected` and `pending_withdrawal` (checked), and moves the game to
`Distributing`, recording the completion time. -/
def complete_game (auth : Nat) (now : Int) (w : World) : Except LotteryError World :=
  if auth ≠ w.game.authority then .error .Unauthorized
  else if w.game.state ≠ GameStatus.Playing then .error .InvalidGameState
  else
    let winners := w.players.filter (fun p => p.eliminated_round.isNone)
    if winners.length = 0 then .error .NoWinnersFound
    else
      let actual_winner_count := Nat.min winners.length w.game.winner_count
      match checked_sub w.game.prize_pool w.game.treasury_fee with
      | none => .error .ArithmeticOverflow
      | some distributable =>
        match checked_div distributable actual_winner_count with
        | none => .error .ArithmeticOverflow
        | some prize_per_winner =>
          let players' := markWinners actual_winner_count prize_per_winner w.players
          if ¬ (w.game.treasury_fee ≤ w.escrow) then .error .TokenTransferFailed
          else
            match checked_add w.treasury.total_collected w.game.treasury_fee with
            | none => .error .ArithmeticOverflow
            | some tc' =>
              match checked_add w.treasury.pending_withdrawal w.game.treasury_fee with
              | none => .error .ArithmeticOverflow
              | some pw' =>
                .ok { w with
                      game := { w.game with
                                state := GameStatus.Distributing
                                completed_at := some now }
                      players := players'
                      treasury := { w.treasury with
                                    total_collected := tc'
                                    pending_withdrawal := pw' }
                      escrow := w.escrow - w.game.treasury_fee
                      treasury_balance := w.treasury_balance + w.game.treasury_fee }

/-- `claim_prize` handler (`solana/programs/lottery/src/instructions/claim_prize.rs`).
Account constraint: state `Distributing`.  Finds the caller, requires
`is_winner`, not `prize_claimed` and `prize_amount > 0`, transfers the
prize from escrow to the winner and marks the prize claimed. -/
def claim_prize (wallet : Nat) (w : World) : Except LotteryError World :=
  if w.game.state ≠ GameStatus.Distributing then .error .InvalidGameState
  else
    match w.players.find? (fun p => p.wallet == wallet) with
    | none => .error .PlayerNotInGame
    | some player =>
      if ¬ player.is_winner then .error .NotAWinner
      else if player.prize_claimed then .error .PrizeAlreadyClaimed
      else if ¬ (0 < player.prize_amount) then .error .NoPrizeToCliam
      else if ¬ (player.prize_amount ≤ w.escrow) then .error .TokenTransferFailed
      else
        .ok { w with
              players := updateFirst (fun p => p.wallet == wallet)
                (fun p => { p with prize_claimed := true }) w.players
              escrow := w.escrow - player.prize_amount }

/-- `request_refund` handler (`programs/lottery/src/instructions/request_refund.rs`).
Account constraint: state `Cancelled`.  Finds the caller, requires the
(dual-purpose) `prize_claimed` flag unset, transfers `entry_fee` back from
escrow, and sets the flag. -/
def request_refund (wallet : Nat) (w : World) : Except LotteryError World :=
  if w.game.state ≠ GameStatus.Cancelled then .error .GameNotCancelled
  else
    match w.players.find? (fun p => p.wallet == wallet) with
    | none => .error .PlayerNotInGame
    | some player =>
      if player.prize_claimed then .error .RefundAlreadyProcessed
      else if ¬ (w.game.entry_fee ≤ w.escrow) then .error .TokenTransferFailed
      else
        .ok { w with
              players := updateFirst (fun p => p.wallet == wallet)
                (fun p => { p with prize_claimed := true }) w.players
              escrow := w.escrow - w.game.entry_fee }

/-- `cancel_game` handler (`lottery_v3.3/programs/lottery/src/instructions/cancel_game.rs`).
Account constraints: signer is the game authority; state not `Completed`,
`Cancelled` or `Distributing`.  The handler bounds the reason at 200
characters; from `Created`/`Joining` a non-empty roster additionally
requires `now > payment_deadline`; from `NumberSelection` it requires
`now > started_at.unwrap_or(0) + 24h`; from `Playing` no further guard.
`entry_fee * players.len()` (computed for the event) aborts on `u64`
overflow in a checked build.  On success, only the state (to `Cancelled`)
and the completion time change; no funds move. -/
def cancel_game (auth : Nat) (reason : String) (now : Int) (w : World) :
    Except LotteryError World :=
  if auth ≠ w.game.authority then .error .Unauthorized
  else if w.game.state = GameStatus.Completed ∨ w.game.state = GameStatus.Cancelled ∨
      w.game.state = GameStatus.Distributing then .error .CannotCancelGame
  else if ¬ (reason.length ≤ 200) then .error .ReasonTooLong
  else
    let stateGuard : Except LotteryError Unit :=
      match w.game.state with
      | GameStatus.Created | GameStatus.Joining =>
        if w.players.length ≠ 0 ∧ ¬ (w.game.payment_deadline < now) then
          .error .CannotCancelActiveGame
        else .ok ()
      | GameStatus.NumberSelection =>
        if ¬ (w.game.started_at.getD 0 + 86400 < now) then .error .CannotCancelActiveGame
        else .ok ()
      | GameStatus.Playing => .ok ()
      | _ => .error .CannotCancelGame
    match stateGuard with
    | .error e => .error e
    | .ok _ =>
      if ¬ (w.game.entry_fee * w.players.length < u64Lim) then .error .ArithmeticOverflow
      else
        .ok { w with
              game := { w.game with
                        state := GameStatus.Cancelled
                        completed_at := some now } }

/-- `withdraw_treasury` handler (`lottery_v3.3/programs/lottery/src/instructions/withdraw_treasury.rs`).
Account constraint: signer is the treasury authority.  `some amt` must not
exceed `pending_withdrawal`; `none` withdraws the whole pending balance;
the amount must be positive; the tokens move from the treasury token
account and `pending_withdrawal` is decremented by checked subtraction. -/
def withdraw_treasury (auth : Nat) (amount : Option Nat) (w : World) :
    Except LotteryError World :=
  if auth ≠ w.treasury.authority then .error .Unauthorized
  else
    let proceed : Except LotteryError Nat :=
      match amount with
      | some amt =>
        if ¬ (amt ≤ w.treasury.pending_withdrawal) then .error .InsufficientTreasuryBalance
        else .ok amt
      | none => .ok w.treasury.pending_withdrawal
    match proceed with
    | .error e => .error e
    | .ok withdrawal_amount =>
      if ¬ (0 < withdrawal_amount) then .error .NoFundsToWithdraw
      else if ¬ (withdrawal_amount ≤ w.treasury_balance) then .error .TokenTransferFailed
      else
        match checked_sub w.treasury.pending_withdrawal withdrawal_amount with
        | none => .error .ArithmeticOverflow
        | some pw' =>
          .ok { w with
                treasury := { w.treasury with pending_withdrawal := pw' }
                treasury_balance := w.treasury_balance - withdrawal_amount }

/-- The states a single game (with the global treasury) can reach: the base
world comes from a successful `initialize` and `create_game`, each further
step is one successful instruction with arbitrary inputs.  The transition
`NumberSelection → Playing` is the spec-modelled `start_game`. -/
inductive Reachable : World → Prop where
  | base {a fp t au vo gid fee mp wc pdm now g} :
      init_treasury a fp = .ok t →
      create_game au vo gid fee mp wc pdm now = .ok g →
      Reachable { game := g, players := [], treasury := t, vrf_results := []
                  escrow := 0, treasury_balance := 0 }
  | join {w w' now wallet tid} : Reachable w →
      join_game now wallet tid w = .ok w' → Reachable w'
  | select {w w' wallet n} : Reachable w →
      select_number wallet n w = .ok w' → Reachable w'
  | start {w w' a} : Reachable w →
      start_game a w = .ok w' → Reachable w'
  | submit {w w' o r rv pf now} : Reachable w →
      submit_vrf o r rv pf now w = .ok w' → Reachable w'
  | request {w w' r} : Reachable w →
      request_orao_vrf r w = .ok w' → Reachable w'
  | fulfill {w w' r ov now} : Reachable w →
      fulfill_orao_vrf r ov now w = .ok w' → Reachable w'
  | elim {w w' a r} : Reachable w →
      process_elimination a r w = .ok w' → Reachable w'
  | complete {w w' a now} : Reachable w →
      complete_game a now w = .ok w' → Reachable w'
  | claim {w w' wallet} : Reachable w →
      claim_prize wallet w = .ok w' → Reachable w'
  | refund {w w' wallet} : Reachable w →
      request_refund wallet w = .ok w' → Reachable w'
  | cancel {w w' a reason now} : Reachable w →
      cancel_game a reason now w = .ok w' → Reachable w'
  | withdraw {w w' a amt} : Reachable w →
      withdraw_treasury a amt w = .ok w' → Reachable w'

theorem updateFirst_length (p : α → Bool) (f : α → α) (l : List α) :
    (updateFirst p f l).length = l.length := by
  induction l with
  | nil => rfl
  | cons x xs ih =>
    unfold updateFirst
    split <;> simp [ih]

theorem updateFirst_mem {p : α → Bool} {f : α → α} {l : List α} {x : α}
    (hx : x ∈ updateFirst p f l) : x ∈ l ∨ ∃ y ∈ l, x = f y := by
  induction l with
  | nil => cases hx
  | cons a as ih =>
    unfold updateFirst at hx
    split at hx
    · rcases List.mem_cons.mp hx with h | h
      · exact Or.inr ⟨a, List.mem_cons_self a as, h⟩
      · exact Or.inl (List.mem_cons_of_mem a h)
    · rcases List.mem_cons.mp hx with h | h
      · exact Or.inl (h ▸ List.mem_cons_self a as)
      · rcases ih h with h' | ⟨y, hy, hxy⟩
        · exact Or.inl (List.mem_cons_of_mem a h')
        · exact Or.inr ⟨y, List.mem_cons_of_mem a hy, hxy⟩

theorem join_game_ok {now : Int} {wallet : Nat} {tid : String} {w w' : World}
    (h : join_game now wallet tid w = Except.ok w') :
    w.game.state = GameStatus.Joining ∧
    now ≤ w.game.payment_deadline ∧
    w.players.length < w.game.max_players ∧
    w'.players.length = w.players.length + 1 ∧
    w'.game.prize_pool = w.game.prize_pool + w.game.entry_fee ∧
    w'.game.treasury_fee = w.game.treasury_fee + w.game.entry_fee / 10 ∧
    w'.game.entry_fee = w.game.entry_fee ∧
    w'.game.max_players = w.game.max_players ∧
    w'.game.current_round = w.game.current_round ∧
    w'.game.drawn_numbers = w.game.drawn_numbers ∧
    w'.game.vrf_request_pending = w.game.vrf_request_pending ∧
    w'.game.pending_round = w.game.pending_round ∧
    w'.vrf_results = w.vrf_results ∧
    w'.treasury = w.treasury := by
  unfold join_game at h
  repeat' split at h
  all_goals try exact Except.noConfusion h
  injection h with h
  subst h
  simp_all [checked_add, checked_div]

theorem select_number_ok {wallet n : Nat} {w w' : World}
    (h : select_number wallet n w = Except.ok w') :
    w'.players.length = w.players.length ∧
    w'.game = w.game ∧
    w'.vrf_results = w.vrf_results ∧
    w'.treasury = w.treasury := by
  unfold select_number at h
  repeat' split at h
  all_goals try exact Except.noConfusion h
  injection h with h
  subst h
  simp_all [updateFirst_length]

theorem start_game_ok {a : Nat} {w w' : World}
    (h : start_game a w = Except.ok w') :
    w'.players = w.players ∧
    w'.game.state = GameStatus.Playing ∧
    w'.game.prize_pool = w.game.prize_pool ∧
    w'.game.treasury_fee = w.game.treasury_fee ∧
    w'.game.entry_fee = w.game.entry_fee ∧
    w'.game.max_players = w.game.max_players ∧
    w'.game.current_round = w.game.current_round ∧
    w'.game.drawn_numbers = w.game.drawn_numbers ∧
    w'.game.vrf_request_pending = w.game.vrf_request_pending ∧
    w'.game.pending_round = w.game.pending_round ∧
    w'.vrf_results = w.vrf_results ∧
    w'.treasury = w.treasury := by
  unfold start_game at h
  repeat' split at h
  all_goals try exact Except.noConfusion h
  injection h with h
  subst h
  simp_all

theorem submit_vrf_ok {o r : Nat} {rv pf : List Nat} {now : Int} {w w' : World}
    (h : submit_vrf o r rv pf now w = Except.ok w') :
    w.game.state = GameStatus.Playing ∧
    (¬ ∃ x ∈ w.vrf_results, x.round = r) ∧
    r = w.game.current_round + 1 ∧
    w'.game.current_round = r ∧
    (∃ d, w'.game.drawn_numbers = w.game.drawn_numbers ++ [d]) ∧
    (∃ x, w'.vrf_results = w.vrf_results ++ [x] ∧ x.round = r) ∧
    w'.players = w.players ∧
    w'.game.prize_pool = w.game.prize_pool ∧
    w'.game.treasury_fee = w.game.treasury_fee ∧
    w'.game.entry_fee = w.game.entry_fee ∧
    w'.game.max_players = w.game.max_players ∧
    w'.game.vrf_request_pending = w.game.vrf_request_pending ∧
    w'.game.pending_round = w.game.pending_round ∧
    w'.treasury = w.treasury := by
  unfold submit_vrf at h
  repeat' split at h
  all_goals try exact Except.noConfusion h
  injection h with h
  subst h
  simp_all [List.any_eq_true]

theorem request_orao_vrf_ok {r : Nat} {w w' : World}
    (h : request_orao_vrf r w = Except.ok w') :
    w.game.state = GameStatus.Playing ∧
    r = w.game.current_round + 1 ∧
    w'.game.vrf_request_pending = true ∧
    w'.game.pending_round = r ∧
    w'.players = w.players ∧
    w'.game.prize_pool = w.game.prize_pool ∧
    w'.game.treasury_fee = w.game.treasury_fee ∧
    w'.game.entry_fee = w.game.entry_fee ∧
    w'.game.max_players = w.game.max_players ∧
    w'.game.current_round = w.game.current_round ∧
    w'.game.drawn_numbers = w.game.drawn_numbers ∧
    w'.vrf_results = w.vrf_results ∧
    w'.treasury = w.treasury := by
  unfold request_orao_vrf at h
  repeat' split at h
  all_goals try exact Except.noConfusion h
  injection h with h
  subst h
  simp_all

theorem fulfill_orao_vrf_ok {r : Nat} {ov : Option (List Nat)} {now : Int} {w w' : World}
    (h : fulfill_orao_vrf r ov now w = Except.ok w') :
    w.game.state = GameStatus.Playing ∧
    w.game.vrf_request_pending = true ∧
    w.game.pending_round = r ∧
    (¬ ∃ x ∈ w.vrf_results, x.round = r) ∧
    w'.game.current_round = r ∧
    (∃ d, w'.game.drawn_numbers = w.game.drawn_numbers ++ [d]) ∧
    (∃ x, w'.vrf_results = w.vrf_results ++ [x] ∧ x.round = r) ∧
    w'.game.vrf_request_pending = false ∧
    w'.game.pending_round = 0 ∧
    w'.players = w.players ∧
    w'.game.prize_pool = w.game.prize_pool ∧
    w'.game.treasury_fee = w.game.treasury_fee ∧
    w'.game.entry_fee = w.game.entry_fee ∧
    w'.game.max_players = w.game.max_players ∧
    w'.treasury = w.treasury := by
  unfold fulfill_orao_vrf at h
  repeat' split at h
  all_goals try exact Except.noConfusion h
  injection h with h
  subst h
  simp_all [List.any_eq_true]

theorem markWinners_length (k ppw : Nat) (l : List Player) :
    (markWinners k ppw l).length = l.length := by
  induction l generalizing k with
  | nil => rfl
  | cons p rest ih =>
    unfold markWinners
    split <;> simp [ih]

theorem updateFirst_map_eq {p : α → Bool} {f : α → α} {g : α → β}
    (hfg : ∀ a, g (f a) = g a) (l : List α) :
    (updateFirst p f l).map g = l.map g := by
  induction l with
  | nil => rfl
  | cons x xs ih =>
    unfold updateFirst
    split <;> simp [ih, hfg]

theorem process_elimination_ok {a r : Nat} {w w' : World}
    (h : process_elimination a r w = Except.ok w') :
    w.game.state = GameStatus.Playing ∧
    r = w.game.current_round ∧
    w'.players.length = w.players.length ∧
    w'.vrf_results.map (fun x => x.round) = w.vrf_results.map (fun x => x.round) ∧
    w'.game = w.game ∧
    w'.treasury = w.treasury := by
  unfold process_elimination at h
  repeat' split at h
  all_goals try exact Except.noConfusion h
  injection h with h
  subst h
  refine ⟨by simp_all, by simp_all, by simp, ?_, by simp, by simp⟩
  dsimp only
  apply updateFirst_map_eq
  intro a
  rfl

theorem complete_game_ok {a : Nat} {now : Int} {w w' : World}
    (h : complete_game a now w = Except.ok w') :
    a = w.game.authority ∧
    w.game.state = GameStatus.Playing ∧
    0 < activeCount w.players ∧
    w.game.treasury_fee ≤ w.game.prize_pool ∧
    w.game.treasury_fee ≤ w.escrow ∧
    w'.players.length = w.players.length ∧
    w'.players = markWinners (Nat.min (activeCount w.players) w.game.winner_count)
      ((w.game.prize_pool - w.game.treasury_fee) /
        Nat.min (activeCount w.players) w.game.winner_count) w.players ∧
    w'.game.state = GameStatus.Distributing ∧
    w'.game.completed_at = some now ∧
    w'.game.prize_pool = w.game.prize_pool ∧
    w'.game.treasury_fee = w.game.treasury_fee ∧
    w'.game.entry_fee = w.game.entry_fee ∧
    w'.game.max_players = w.game.max_players ∧
    w'.game.current_round = w.game.current_round ∧
    w'.game.drawn_numbers = w.game.drawn_numbers ∧
    w'.game.vrf_request_pending = w.game.vrf_request_pending ∧
    w'.game.pending_round = w.game.pending_round ∧
    w'.vrf_results = w.vrf_results ∧
    w'.treasury.total_collected = w.treasury.total_collected + w.game.treasury_fee ∧
    w'.treasury.pending_withdrawal = w.treasury.pending_withdrawal + w.game.treasury_fee ∧
    w'.treasury.total_distributed = w.treasury.total_distributed := by
  unfold complete_game at h
  dsimp only at h
  repeat' split at h
  all_goals try exact Except.noConfusion h
  injection h with h
  subst h
  simp_all [checked_sub, checked_add, checked_div, activeCount, markWinners_length]
  obtain ⟨x, hx, hxe⟩ : ∃ x ∈ w.players, x.eliminated_round = none := by assumption
  exact List.length_pos_of_mem (List.mem_filter.mpr ⟨hx, by simp [hxe]⟩)

theorem claim_prize_ok {wallet : Nat} {w w' : World}
    (h : claim_prize wallet w = Except.ok w') :
    w.game.state = GameStatus.Distributing ∧
    w'.players.length = w.players.length ∧
    w'.game = w.game ∧
    w'.vrf_results = w.vrf_results ∧
    w'.treasury = w.treasury := by
  unfold claim_prize at h
  repeat' split at h
  all_goals try exact Except.noConfusion h
  injection h with h
  subst h
  simp_all [updateFirst_length]

theorem request_refund_ok {wallet : Nat} {w w' : World}
    (h : request_refund wallet w = Except.ok w') :
    w.game.state = GameStatus.Cancelled ∧
    w'.players.length = w.players.length ∧
    w'.game = w.game ∧
    w'.vrf_results = w.vrf_results ∧
    w'.treasury = w.treasury := by
  unfold request_refund at h
  repeat' split at h
  all_goals try exact Except.noConfusion h
  injection h with h
  subst h
  simp_all [updateFirst_length]

theorem cancel_game_ok {a : Nat} {reason : String} {now : Int} {w w' : World}
    (h : cancel_game a reason now w = Except.ok w') :
    w'.players = w.players ∧
    w'.game.state = GameStatus.Cancelled ∧
    w'.game.completed_at = some now ∧
    w'.game.prize_pool = w.game.prize_pool ∧
    w'.game.treasury_fee = w.game.treasury_fee ∧
    w'.game.entry_fee = w.game.entry_fee ∧
    w'.game.max_players = w.game.max_players ∧
    w'.game.current_round = w.game.current_round ∧
    w'.game.drawn_numbers = w.game.drawn_numbers ∧
    w'.game.vrf_request_pending = w.game.vrf_request_pending ∧
    w'.game.pending_round = w.game.pending_round ∧
    w'.vrf_results = w.vrf_results ∧
    w'.treasury = w.treasury ∧
    w'.escrow = w.escrow ∧
    w'.treasury_balance = w.treasury_balance := by
  unfold cancel_game at h
  dsimp only at h
  repeat' (first | split at h | dsimp only at h)
  all_goals try exact Except.noConfusion h
  all_goals (injection h with h; subst h; simp_all)

theorem withdraw_treasury_ok {a : Nat} {amt : Option Nat} {w w' : World}
    (h : withdraw_treasury a amt w = Except.ok w') :
    w'.players = w.players ∧
    w'.game = w.game ∧
    w'.vrf_results = w.vrf_results ∧
    w'.treasury.total_collected = w.treasury.total_collected ∧
    w'.treasury.total_distributed = w.treasury.total_distributed ∧
    w'.treasury.pending_withdrawal < w.treasury.pending_withdrawal := by
  unfold withdraw_treasury at h
  dsimp only at h
  repeat' (first | split at h | dsimp only at h)
  all_goals try exact Except.noConfusion h
  all_goals (injection h with h; subst h; simp_all [checked_sub])
  all_goals omega

theorem init_treasury_ok {a fp : Nat} {t : TreasuryState}
    (h : init_treasury a fp = Except.ok t) :
    t.authority = a ∧ t.total_collected = 0 ∧ t.total_distributed = 0 ∧
    t.pending_withdrawal = 0 ∧ t.fee_percentage = fp ∧ 0 < fp ∧ fp ≤ 50 := by
  unfold init_treasury at h
  repeat' split at h
  all_goals try exact Except.noConfusion h
  injection h with h
  subst h
  simp_all

theorem create_game_ok {au vo fee mp wc pdm : Nat} {gid : String} {now : Int}
    {g : GameState} (h : create_game au vo gid fee mp wc pdm now = Except.ok g) :
    g.authority = au ∧ g.entry_fee = fee ∧ g.max_players = mp ∧ g.winner_count = wc ∧
    g.state = GameStatus.Joining ∧ g.prize_pool = 0 ∧ g.treasury_fee = 0 ∧
    g.number_range = { min := 1, max := mp * 2 } ∧
    g.payment_deadline = now + pdm * 60 ∧ g.current_round = 0 ∧
    g.drawn_numbers = [] ∧ g.vrf_oracle = vo ∧ g.vrf_request_pending = false ∧
    g.pending_round = 0 ∧ 0 < fee ∧ 2 ≤ mp ∧ mp ≤ 100 ∧ 0 < wc ∧ wc < mp := by
  unfold create_game at h
  repeat' split at h
  all_goals try exact Except.noConfusion h
  injection h with h
  subst h
  simp_all
  all_goals omega

/-- The inductive invariant the claims need, over the fields of a reachable
world: capacity, the exact prize-pool and treasury-fee accounting, the
round/drawn-number agreement, the bound on recorded randomness rounds, the
pending-request round, and the never-written `total_distributed`. -/
def WorldInv (w : World) : Prop :=
  w.players.length ≤ w.game.max_players ∧
  w.game.prize_pool = w.game.entry_fee * w.players.length ∧
  w.game.treasury_fee = w.players.length * (w.game.entry_fee / 10) ∧
  w.game.drawn_numbers.length = w.game.current_round ∧
  (∀ r ∈ w.vrf_results, r.round ≤ w.game.current_round) ∧
  (w.game.vrf_request_pending = true →
    w.game.pending_round = w.game.current_round + 1 ∨
    ∃ r ∈ w.vrf_results, r.round = w.game.pending_round) ∧
  w.treasury.total_distributed = 0

theorem WorldInv_of_frame {w w' : World}
    (hlen : w'.players.length = w.players.length)
    (hfee : w'.game.entry_fee = w.game.entry_fee)
    (hmp : w'.game.max_players = w.game.max_players)
    (hpool : w'.game.prize_pool = w.game.prize_pool)
    (htf : w'.game.treasury_fee = w.game.treasury_fee)
    (hcr : w'.game.current_round = w.game.current_round)
    (hdn : w'.game.drawn_numbers = w.game.drawn_numbers)
    (hvp : w'.game.vrf_request_pending = w.game.vrf_request_pending)
    (hpr : w'.game.pending_round = w.game.pending_round)
    (hvrf : w'.vrf_results = w.vrf_results)
    (htd : w'.treasury.total_distributed = w.treasury.total_distributed)
    (hinv : WorldInv w) : WorldInv w' := by
  obtain ⟨i1, i2, i3, i4, i5, i6, i7⟩ := hinv
  refine ⟨?_, ?_, ?_, ?_, ?_, ?_, ?_⟩ <;> simp_all

/-- Every reachable world satisfies the invariant. -/
theorem reachable_worldInv {w : World} (h : Reachable w) : WorldInv w := by
  induction h with
  | base h1 h2 =>
    obtain ⟨-, -, htd, -, -, -, -⟩ := init_treasury_ok h1
    obtain ⟨-, -, -, -, -, hpool, htf, -, -, hcr, hdn, -, hvp, -, -, -, -, -, -⟩ :=
      create_game_ok h2
    refine ⟨?_, ?_, ?_, ?_, ?_, ?_, ?_⟩ <;> simp_all
  | join hre hok ih =>
    obtain ⟨-, -, hlt, hlen, hpool, htf, hfee, hmp, hcr, hdn, hvp, hpr, hvrf, htre⟩ :=
      join_game_ok hok
    obtain ⟨i1, i2, i3, i4, i5, i6, i7⟩ := ih
    refine ⟨?_, ?_, ?_, ?_, ?_, ?_, ?_⟩
    · omega
    · rw [hpool, hfee, hlen, i2]; ring
    · rw [htf, hfee, hlen, i3]; ring
    · rw [hdn, hcr, i4]
    · intro r hr; rw [hvrf] at hr; rw [hcr]; exact i5 r hr
    · intro hp; rw [hvp] at hp; rw [hpr, hcr, hvrf]; exact i6 hp
    · rw [htre]; exact i7
  | select hre hok ih =>
    obtain ⟨hlen, hg, hvrf, htre⟩ := select_number_ok hok
    exact WorldInv_of_frame hlen (by rw [hg]) (by rw [hg]) (by rw [hg]) (by rw [hg])
      (by rw [hg]) (by rw [hg]) (by rw [hg]) (by rw [hg]) hvrf (by rw [htre]) ih
  | start hre hok ih =>
    obtain ⟨hpl, -, hpool, htf, hfee, hmp, hcr, hdn, hvp, hpr, hvrf, htre⟩ :=
      start_game_ok hok
    exact WorldInv_of_frame (by rw [hpl]) hfee hmp hpool htf hcr hdn hvp hpr hvrf
      (by rw [htre]) ih
  | submit hre hok ih =>
    obtain ⟨-, -, hr, hcr', hdn, hvrf, hpl, hpool, htf, hfee, hmp, hvp, hpr, htre⟩ :=
      submit_vrf_ok hok
    obtain ⟨d, hd⟩ := hdn
    obtain ⟨x, hx, hxr⟩ := hvrf
    obtain ⟨i1, i2, i3, i4, i5, i6, i7⟩ := ih
    refine ⟨?_, ?_, ?_, ?_, ?_, ?_, ?_⟩
    · rw [hpl, hmp]; exact i1
    · rw [hpool, hfee, hpl]; exact i2
    · rw [htf, hfee, hpl]; exact i3
    · rw [hd, hcr', hr]; simp [i4]
    · intro y hy
      rw [hx] at hy
      rcases List.mem_append.mp hy with hmem | hmem
      · rw [hcr', hr]; exact Nat.le_succ_of_le (i5 y hmem)
      · rw [List.mem_singleton.mp hmem, hxr, hcr']
    · intro hp
      rw [hvp] at hp
      rw [hpr, hx]
      rcases i6 hp with hc | ⟨r₀, hr₀, hr₀r⟩
      · right; exact ⟨x, List.mem_append_right _ (List.mem_singleton_self x),
          by rw [hxr, hc]; exact hr⟩
      · right; exact ⟨r₀, List.mem_append_left _ hr₀, hr₀r⟩
    · rw [htre]; exact i7
  | request hre hok ih =>
    obtain ⟨-, hr, hvp', hpr', hpl, hpool, htf, hfee, hmp, hcr, hdn, hvrf, htre⟩ :=
      request_orao_vrf_ok hok
    obtain ⟨i1, i2, i3, i4, i5, i6, i7⟩ := ih
    refine ⟨?_, ?_, ?_, ?_, ?_, ?_, ?_⟩
    · rw [hpl, hmp]; exact i1
    · rw [hpool, hfee, hpl]; exact i2
    · rw [htf, hfee, hpl]; exact i3
    · rw [hdn, hcr]; exact i4
    · intro y hy; rw [hvrf] at hy; rw [hcr]; exact i5 y hy
    · intro _; left; rw [hpr', hcr, hr]
    · rw [htre]; exact i7
  | @fulfill u u' r₁ ov₁ now₁ hre hok ih =>
    obtain ⟨-, hvp, hprr, hnone, hcr', hdn, hvrf, hvp', hpr', hpl, hpool, htf, hfee,
      hmp, htre⟩ := fulfill_orao_vrf_ok hok
    obtain ⟨d, hd⟩ := hdn
    obtain ⟨x, hx, hxr⟩ := hvrf
    obtain ⟨i1, i2, i3, i4, i5, i6, i7⟩ := ih
    have hr : u.game.pending_round = u.game.current_round + 1 := by
      rcases i6 hvp with hc | ⟨r₀, hr₀, hr₀r⟩
      · exact hc
      · exact absurd ⟨r₀, hr₀, by rw [hr₀r, hprr]⟩ hnone
    refine ⟨?_, ?_, ?_, ?_, ?_, ?_, ?_⟩
    · rw [hpl, hmp]; exact i1
    · rw [hpool, hfee, hpl]; exact i2
    · rw [htf, hfee, hpl]; exact i3
    · rw [hd, hcr', ← hprr, hr]; simp [i4]
    · intro y hy
      rw [hx] at hy
      rcases List.mem_append.mp hy with hmem | hmem
      · rw [hcr', ← hprr, hr]; exact Nat.le_succ_of_le (i5 y hmem)
      · rw [List.mem_singleton.mp hmem, hxr, hcr']
    · intro hp; rw [hvp'] at hp; exact Bool.noConfusion hp
    · rw [htre]; exact i7
  | @elim u u' a₁ r₁ hre hok ih =>
    obtain ⟨-, -, hlen, hmap, hg, htre⟩ := process_elimination_ok hok
    obtain ⟨i1, i2, i3, i4, i5, i6, i7⟩ := ih
    refine ⟨?_, ?_, ?_, ?_, ?_, ?_, ?_⟩
    · rw [hlen, hg]; exact i1
    · rw [hg, hlen]; exact i2
    · rw [hg, hlen]; exact i3
    · rw [hg]; exact i4
    · intro y hy
      have hyr : y.round ∈ u'.vrf_results.map (fun x => x.round) := List.mem_map_of_mem _ hy
      rw [hmap] at hyr
      obtain ⟨z, hz, hzy⟩ := List.mem_map.mp hyr
      rw [hg, ← hzy]; exact i5 z hz
    · intro hp
      rw [hg] at hp ⊢
      rcases i6 hp with hc | ⟨r₀, hr₀, hr₀r⟩
      · left; exact hc
      · right
        have hrr : r₀.round ∈ u.vrf_results.map (fun x => x.round) := List.mem_map_of_mem _ hr₀
        rw [← hmap] at hrr
        obtain ⟨z, hz, hzy⟩ := List.mem_map.mp hrr
        exact ⟨z, hz, by rw [hzy, hr₀r]⟩
    · rw [htre]; exact i7
  | complete hre hok ih =>
    obtain ⟨-, -, -, -, -, hlen, -, -, -, hpool, htf, hfee, hmp, hcr, hdn, hvp, hpr,
      hvrf, -, -, htd⟩ := complete_game_ok hok
    exact WorldInv_of_frame hlen hfee hmp hpool htf hcr hdn hvp hpr hvrf htd ih
  | claim hre hok ih =>
    obtain ⟨-, hlen, hg, hvrf, htre⟩ := claim_prize_ok hok
    exact WorldInv_of_frame hlen (by rw [hg]) (by rw [hg]) (by rw [hg]) (by rw [hg])
      (by rw [hg]) (by rw [hg]) (by rw [hg]) (by rw [hg]) hvrf (by rw [htre]) ih
  | refund hre hok ih =>
    obtain ⟨-, hlen, hg, hvrf, htre⟩ := request_refund_ok hok
    exact WorldInv_of_frame hlen (by rw [hg]) (by rw [hg]) (by rw [hg]) (by rw [hg])
      (by rw [hg]) (by rw [hg]) (by rw [hg]) (by rw [hg]) hvrf (by rw [htre]) ih
  | cancel hre hok ih =>
    obtain ⟨hpl, -, -, hpool, htf, hfee, hmp, hcr, hdn, hvp, hpr, hvrf, htre, -, -⟩ :=
      cancel_game_ok hok
    exact WorldInv_of_frame (by rw [hpl]) hfee hmp hpool htf hcr hdn hvp hpr hvrf
      (by rw [htre]) ih
  | withdraw hre hok ih =>
    obtain ⟨hpl, hg, hvrf, -, htd, -⟩ := withdraw_treasury_ok hok
    exact WorldInv_of_frame (by rw [hpl]) (by rw [hg]) (by rw [hg]) (by rw [hg])
      (by rw [hg]) (by rw [hg]) (by rw [hg]) (by rw [hg]) (by rw [hg]) hvrf htd ih

/-- The world after a successful step, used to spell out concrete runs. -/
def stepOk (w : World) : Except LotteryError World → World
  | .ok w' => w'
  | .error _ => w

/-- Concrete base world: treasury initialised with authority `7` and fee
percentage `10`; game created by authority `5` (oracle `6`) with
`entry_fee = 1000000`, `max_players = 4`, `winner_count = 1`, a 60-minute
payment deadline, at time `0` (the spec §8 scenario). -/
def wBase : World :=
  { game := { authority := 5, entry_fee := 1000000, max_players := 4, winner_count := 1
              state := GameStatus.Joining, prize_pool := 0, treasury_fee := 0
              number_range := { min := 1, max := 8 }, created_at := 0
              started_at := none, completed_at := none, payment_deadline := 3600
              current_round := 0, drawn_numbers := [], vrf_oracle := 6
              vrf_request_pending := false, pending_round := 0 }
    players := []
    treasury := { authority := 7, total_collected := 0, total_distributed := 0
                  pending_withdrawal := 0, fee_percentage := 10 }
    vrf_results := [], escrow := 0, treasury_balance := 0 }

def w1 : World := stepOk wBase (join_game 10 1 "a" wBase)
def w2 : World := stepOk w1 (join_game 11 2 "b" w1)
def w3 : World := stepOk w2 (join_game 12 3 "c" w2)
def w4 : World := stepOk w3 (join_game 13 4 "d" w3)
def s1 : World := stepOk w4 (select_number 1 1 w4)
def s2 : World := stepOk s1 (select_number 2 2 s1)
def s3 : World := stepOk s2 (select_number 3 3 s2)
def s4 : World := stepOk s3 (select_number 4 4 s3)
def wP : World := stepOk s4 (start_game 5 s4)

/-- A 32-byte random value whose little-endian first 8 bytes read `3`;
with range `[1, 8]` the derived drawn number is `3 % 8 + 1 = 4`. -/
def rv3 : List Nat := 3 :: List.replicate 31 0

def pf64 : List Nat := List.replicate 64 0

def wSub : World := stepOk wP (submit_vrf 6 1 rv3 pf64 100 wP)
def wE : World := stepOk wSub (process_elimination 5 1 wSub)
def wD : World := stepOk wE (complete_game 5 200 wE)
def wC1 : World := stepOk wD (claim_prize 1 wD)
def wReq : World := stepOk wP (request_orao_vrf 1 wP)

theorem wBase_reachable : Reachable wBase :=
  @Reachable.base 7 10 wBase.treasury 5 6 "g1" 1000000 4 1 60 0 wBase.game
    (by decide) (by decide)

theorem w1_reachable : Reachable w1 :=
  @Reachable.join wBase w1 10 1 "a" wBase_reachable (by decide)

theorem w2_reachable : Reachable w2 :=
  @Reachable.join w1 w2 11 2 "b" w1_reachable (by decide)

theorem w3_reachable : Reachable w3 :=
  @Reachable.join w2 w3 12 3 "c" w2_reachable (by decide)

theorem w4_reachable : Reachable w4 :=
  @Reachable.join w3 w4 13 4 "d" w3_reachable (by decide)

theorem s1_reachable : Reachable s1 :=
  @Reachable.select w4 s1 1 1 w4_reachable (by decide)

theorem s2_reachable : Reachable s2 :=
  @Reachable.select s1 s2 2 2 s1_reachable (by decide)

theorem s3_reachable : Reachable s3 :=
  @Reachable.select s2 s3 3 3 s2_reachable (by decide)

theorem s4_reachable : Reachable s4 :=
  @Reachable.select s3 s4 4 4 s3_reachable (by decide)

theorem wP_reachable : Reachable wP :=
  @Reachable.start s4 wP 5 s4_reachable (by decide)

theorem wSub_reachable : Reachable wSub :=
  @Reachable.submit wP wSub 6 1 rv3 pf64 100 wP_reachable (by decide)

theorem wE_reachable : Reachable wE :=
  @Reachable.elim wSub wE 5 1 wSub_reachable (by decide)

theorem wD_reachable : Reachable wD :=
  @Reachable.complete wE wD 5 200 wE_reachable (by decide)

theorem wC1_reachable : Reachable wC1 :=
  @Reachable.claim wD wC1 1 wD_reachable (by decide)

theorem wReq_reachable : Reachable wReq :=
  @Reachable.request wP wReq 1 wP_reachable (by decide)

theorem markWinners_zero (ppw : Nat) (l : List Player) :
    markWinners 0 ppw l = l := by
  induction l with
  | nil => rfl
  | cons p rest ih => simp [markWinners, ih]

theorem markWinners_winner_count {l : List Player} (k ppw : Nat)
    (h : ∀ p ∈ l, p.is_winner = false) :
    ((markWinners k ppw l).filter (fun p => p.is_winner)).length =
      Nat.min k (activeCount l) := by
  induction l generalizing k with
  | nil => simp [markWinners, activeCount]
  | cons p rest ih =>
    have hp : p.is_winner = false := h p (List.mem_cons_self p rest)
    have hrest : ∀ q ∈ rest, q.is_winner = false :=
      fun q hq => h q (List.mem_cons_of_mem p hq)
    unfold markWinners
    by_cases hc : p.eliminated_round.isNone ∧ 0 < k
    · rw [if_pos hc]
      obtain ⟨k', rfl⟩ : ∃ k', k = k' + 1 := ⟨k - 1, by omega⟩
      have hih := ih k' hrest
      simp only [List.filter_cons, activeCount] at *
      simp only [hc.1, if_pos, Nat.add_sub_cancel]
      simp only [List.length_cons, hih]
      simp only [Nat.min_def]
      split_ifs <;> omega
    · rw [if_neg hc]
      by_cases he : p.eliminated_round.isNone
      · have hk : k = 0 := by
          rcases Decidable.not_and_iff_or_not.mp hc with h1 | h2
          · exact absurd he h1
          · omega
        subst hk
        have hnil : (rest.filter fun p => p.is_winner) = [] :=
          List.filter_eq_nil_iff.mpr (by intro a ha; simp [hrest a ha])
        simp [markWinners_zero, List.filter_cons, hp, hnil, activeCount]
      · have hih := ih k hrest
        simp only [List.filter_cons, activeCount] at *
        simp [hp, he, hih]

theorem markWinners_prize {l : List Player} {k ppw : Nat}
    (h : ∀ p ∈ l, p.is_winner = false) :
    ∀ p ∈ markWinners k ppw l, p.is_winner = true → p.prize_amount = ppw := by
  induction l generalizing k with
  | nil => intro p hp; cases hp
  | cons q rest ih =>
    have hrest : ∀ x ∈ rest, x.is_winner = false :=
      fun x hx => h x (List.mem_cons_of_mem q hx)
    intro p hp hwin
    unfold markWinners at hp
    split at hp
    · rcases List.mem_cons.mp hp with hpe | hpm
      · rw [hpe]
      · exact ih hrest p hpm hwin
    · rcases List.mem_cons.mp hp with hpe | hpm
      · rw [hpe] at hwin
        exact absurd hwin (by simp [h q (List.mem_cons_self q rest)])
      · exact ih hrest p hpm hwin

/-- C4: settlement arithmetic.  `calculate_prize_distribution` aborts exactly
when `treasury_fee > prize_pool` (checked subtraction) and otherwise returns
`floor((pool − fee) / winners)` for `winners > 0`, with
`prize_distribution(1000,100,3) = 300`; `complete_game` aborts when
`treasury_fee > prize_pool`, and on success (from a state with no winners
marked yet) marks exactly `min(remaining_active_count, winner_count)` players
as winners, each with prize
`floor((prize_pool − treasury_fee) / min(remaining_active_count, winner_count))`. -/
theorem C4_prize_distribution :
    (∀ pool fee n, fee ≤ pool → 0 < n →
      calculate_prize_distribution pool fee n = Except.ok ((pool - fee) / n)) ∧
    (∀ pool fee n, pool < fee →
      calculate_prize_distribution pool fee n = Except.error LotteryError.ArithmeticOverflow) ∧
    calculate_prize_distribution 1000 100 3 = Except.ok 300 ∧
    (∀ a now w w', w.game.prize_pool < w.game.treasury_fee →
      complete_game a now w ≠ Except.ok w') ∧
    (∀ a now w w', (∀ p ∈ w.players, p.is_winner = false) →
      complete_game a now w = Except.ok w' →
      (w'.players.filter (fun p => p.is_winner)).length =
        Nat.min (activeCount w.players) w.game.winner_count ∧
      (∀ p ∈ w'.players, p.is_winner = true →
        p.prize_amount = (w.game.prize_pool - w.game.treasury_fee) /
          Nat.min (activeCount w.players) w.game.winner_count)) := by
  refine ⟨?_, ?_, by decide, ?_, ?_⟩
  · intro pool fee n hfp hn
    unfold calculate_prize_distribution checked_sub checked_div
    rw [if_pos hfp]
    simp only
    rw [if_neg (by omega)]
  · intro pool fee n hpf
    unfold calculate_prize_distribution checked_sub
    rw [if_neg (by omega)]
  · intro a now w w' hlt h
    obtain ⟨-, -, -, hle, -⟩ := complete_game_ok h
    omega
  · intro a now w w' hnw h
    obtain ⟨-, -, hact, -, -, -, hpl, -⟩ := complete_game_ok h
    constructor
    · rw [hpl]
      rw [markWinners_winner_count _ _ hnw]
      exact Nat.min_eq_left (Nat.min_le_left _ _)
    · intro p hp hwin
      rw [hpl] at hp
      exact markWinners_prize hnw p hp hwin

/-- C4 witness: the concrete instances `(1000, 100, 3) ↦ 300`, an abort at
`pool = 50 < fee = 100`, and the settlement of the concrete game `wE`
(3 active players, `winner_count = 1`): exactly `min(3,1) = 1` winner with
prize `(4000000 − 400000) / 1`. -/
theorem C4_witness :
    calculate_prize_distribution 1000 100 3 = Except.ok 300 ∧
    calculate_prize_distribution 50 100 7 = Except.error LotteryError.ArithmeticOverflow ∧
    (wD.players.filter (fun p => p.is_winner)).length =
      Nat.min (activeCount wE.players) wE.game.winner_count :=
  ⟨(C4_prize_distribution.1 1000 100 3 (by decide) (by decide)).trans (by decide),
   C4_prize_distribution.2.1 50 100 7 (by decide),
   (C4_prize_distribution.2.2.2.2 5 200 wE wD (by decide) (by decide)).1⟩

/-- C6 counterexample: for the range `min = 0, max = 255` (which satisfies
`min ≤ max`) the code aborts — `(max - min + 1) as u64` is a `u8` overflow
(or, wrapping, a zero range making `random_u64 % range` a division by zero) —
so no drawn number is derived at all, where the claim asserts the drawn
number `0` would be produced and lie in `[0, 255]`. -/
theorem C6_counterexample :
    generate_number_from_random (List.replicate 32 0) 0 255 = none := by decide

/-- C6 (amended): for every 32-byte random value and every range with
`min ≤ max` and `max − min < 255` (excluding only `(0, 255)`, where the code
panics), the derived number equals
`(little-endian u64 of the first 8 bytes) mod (max − min + 1) + min` and lies
in `[min, max]`. -/
theorem C6_amended {bytes : List Nat} {min max : Nat} (hlen : bytes.length = 32)
    (hmm : min ≤ max) (hrange : max - min < 255) :
    generate_number_from_random bytes min max =
      some (u64_from_le_bytes (bytes.take 8) % (max - min + 1) + min) ∧
    min ≤ u64_from_le_bytes (bytes.take 8) % (max - min + 1) + min ∧
    u64_from_le_bytes (bytes.take 8) % (max - min + 1) + min ≤ max := by
  unfold generate_number_from_random
  rw [if_neg (by omega), if_pos hmm, if_pos (by omega)]
  have h1 : u64_from_le_bytes (bytes.take 8) % (max - min + 1) < max - min + 1 :=
    Nat.mod_lt _ (by omega)
  refine ⟨?_, by omega, by omega⟩
  rw [Nat.mod_eq_of_lt (by omega)]

/-- C6 witness: the all-zero 32-byte value with range `[1, 10]` derives
`0 % 10 + 1 = 1 ∈ [1, 10]`. -/
theorem C6_witness :
    generate_number_from_random (List.replicate 32 0) 1 10 =
      some (u64_from_le_bytes ((List.replicate 32 0).take 8) % (10 - 1 + 1) + 1) ∧
    1 ≤ u64_from_le_bytes ((List.replicate 32 0).take 8) % (10 - 1 + 1) + 1 ∧
    u64_from_le_bytes ((List.replicate 32 0).take 8) % (10 - 1 + 1) + 1 ≤ 10 :=
  C6_amended (by decide) (by decide) (by decide)

/-- C2: each randomness-ingestion path — the oracle-signed `submit_vrf` and
the `request_orao_vrf` / `fulfill_orao_vrf` pair — produces a randomness
result only for `round = current_round + 1` in any reachable world (so a
submitted round that does not equal `current_round + 1` is rejected), on
success sets `current_round = round` and appends exactly one drawn number,
and `len(drawn_numbers) = current_round` holds in every reachable world. -/
theorem C2_round_advancement {w : World} (hw : Reachable w) :
    w.game.drawn_numbers.length = w.game.current_round ∧
    (∀ o r rv pf now w', submit_vrf o r rv pf now w = Except.ok w' →
      r = w.game.current_round + 1 ∧ w'.game.current_round = r ∧
      ∃ d, w'.game.drawn_numbers = w.game.drawn_numbers ++ [d]) ∧
    (∀ r w', request_orao_vrf r w = Except.ok w' → r = w.game.current_round + 1) ∧
    (∀ r ov now w', fulfill_orao_vrf r ov now w = Except.ok w' →
      r = w.game.current_round + 1 ∧ w'.game.current_round = r ∧
      ∃ d, w'.game.drawn_numbers = w.game.drawn_numbers ++ [d]) := by
  obtain ⟨-, -, -, i4, -, i6, -⟩ := reachable_worldInv hw
  refine ⟨i4, ?_, ?_, ?_⟩
  · intro o r rv pf now w' h
    obtain ⟨-, -, hr, hcr, hdn, -⟩ := submit_vrf_ok h
    exact ⟨hr, hcr, hdn⟩
  · intro r w' h
    exact (request_orao_vrf_ok h).2.1
  · intro r ov now w' h
    obtain ⟨-, hvp, hprr, hnone, hcr, hdn, -⟩ := fulfill_orao_vrf_ok h
    have hr : r = w.game.current_round + 1 := by
      rcases i6 hvp with hc | ⟨r₀, hr₀, hr₀r⟩
      · rw [← hprr]; exact hc
      · exact absurd ⟨r₀, hr₀, by rw [hr₀r, hprr]⟩ hnone
    exact ⟨hr, hcr, hdn⟩

/-- C2 witness: the concrete reachable worlds `wP` (in `Playing`, round 0)
and `wSub` (after the round-1 submission): the submission carried round
`0 + 1`, advanced `current_round` to `1`, and the length/round agreement
holds at `wSub`. -/
theorem C2_witness :
    wSub.game.drawn_numbers.length = wSub.game.current_round ∧
    (1 : Nat) = wP.game.current_round + 1 ∧
    wSub.game.current_round = 1 :=
  ⟨(C2_round_advancement wSub_reachable).1,
   ((C2_round_advancement wP_reachable).2.1 6 1 rv3 pf64 100 wSub (by decide)).1,
   ((C2_round_advancement wP_reachable).2.1 6 1 rv3 pf64 100 wSub (by decide)).2.1⟩

/-- The prize pool and treasury-fee accumulators of a game are untouched by
an operation. -/
def poolsUnchanged (w w' : World) : Prop :=
  w'.game.prize_pool = w.game.prize_pool ∧
  w'.game.treasury_fee = w.game.treasury_fee

/-- C3: in every reachable world the roster size is at most `max_players`,
`prize_pool = entry_fee × joined_player_count`,
`treasury_fee = joined_player_count × floor(entry_fee / 10)` and hence
`treasury_fee ≤ prize_pool`; a successful join adds `entry_fee` to the pool
and `floor(entry_fee / 10)` to the fee accumulator, and no other operation
changes either accumulator. -/
theorem C3_escrow_accounting :
    (∀ w, Reachable w →
      w.players.length ≤ w.game.max_players ∧
      w.game.prize_pool = w.game.entry_fee * w.players.length ∧
      w.game.treasury_fee = w.players.length * (w.game.entry_fee / 10) ∧
      w.game.treasury_fee ≤ w.game.prize_pool) ∧
    (∀ now wallet tid w w', join_game now wallet tid w = Except.ok w' →
      w'.game.prize_pool = w.game.prize_pool + w.game.entry_fee ∧
      w'.game.treasury_fee = w.game.treasury_fee + w.game.entry_fee / 10) ∧
    (∀ wallet n w w', select_number wallet n w = Except.ok w' → poolsUnchanged w w') ∧
    (∀ a w w', start_game a w = Except.ok w' → poolsUnchanged w w') ∧
    (∀ o r rv pf now w w', submit_vrf o r rv pf now w = Except.ok w' → poolsUnchanged w w') ∧
    (∀ r w w', request_orao_vrf r w = Except.ok w' → poolsUnchanged w w') ∧
    (∀ r ov now w w', fulfill_orao_vrf r ov now w = Except.ok w' → poolsUnchanged w w') ∧
    (∀ a r w w', process_elimination a r w = Except.ok w' → poolsUnchanged w w') ∧
    (∀ a now w w', complete_game a now w = Except.ok w' → poolsUnchanged w w') ∧
    (∀ wallet w w', claim_prize wallet w = Except.ok w' → poolsUnchanged w w') ∧
    (∀ wallet w w', request_refund wallet w = Except.ok w' → poolsUnchanged w w') ∧
    (∀ a reason now w w', cancel_game a reason now w = Except.ok w' → poolsUnchanged w w') ∧
    (∀ a amt w w', withdraw_treasury a amt w = Except.ok w' → poolsUnchanged w w') := by
  refine ⟨?_, ?_, ?_, ?_, ?_, ?_, ?_, ?_, ?_, ?_, ?_, ?_, ?_⟩
  · intro w hw
    obtain ⟨i1, i2, i3, -⟩ := reachable_worldInv hw
    refine ⟨i1, i2, i3, ?_⟩
    rw [i2, i3, Nat.mul_comm w.players.length]
    exact Nat.mul_le_mul_right _ (Nat.div_le_self _ _)
  · intro now wallet tid w w' h
    obtain ⟨-, -, -, -, hpool, htf, -⟩ := join_game_ok h
    exact ⟨hpool, htf⟩
  · intro wallet n w w' h
    obtain ⟨-, hg, -⟩ := select_number_ok h
    exact ⟨by rw [hg], by rw [hg]⟩
  · intro a w w' h
    obtain ⟨-, -, hpool, htf, -⟩ := start_game_ok h
    exact ⟨hpool, htf⟩
  · intro o r rv pf now w w' h
    obtain ⟨-, -, -, -, -, -, -, hpool, htf, -⟩ := submit_vrf_ok h
    exact ⟨hpool, htf⟩
  · intro r w w' h
    obtain ⟨-, -, -, -, -, hpool, htf, -⟩ := request_orao_vrf_ok h
    exact ⟨hpool, htf⟩
  · intro r ov now w w' h
    obtain ⟨-, -, -, -, -, -, -, -, -, -, hpool, htf, -⟩ := fulfill_orao_vrf_ok h
    exact ⟨hpool, htf⟩
  · intro a r w w' h
    obtain ⟨-, -, -, -, hg, -⟩ := process_elimination_ok h
    exact ⟨by rw [hg], by rw [hg]⟩
  · intro a now w w' h
    obtain ⟨-, -, -, -, -, -, -, -, -, hpool, htf, -⟩ := complete_game_ok h
    exact ⟨hpool, htf⟩
  · intro wallet w w' h
    obtain ⟨-, -, hg, -⟩ := claim_prize_ok h
    exact ⟨by rw [hg], by rw [hg]⟩
  · intro wallet w w' h
    obtain ⟨-, -, hg, -⟩ := request_refund_ok h
    exact ⟨by rw [hg], by rw [hg]⟩
  · intro a reason now w w' h
    obtain ⟨-, -, -, hpool, htf, -⟩ := cancel_game_ok h
    exact ⟨hpool, htf⟩
  · intro a amt w w' h
    obtain ⟨-, hg, -⟩ := withdraw_treasury_ok h
    exact ⟨by rw [hg], by rw [hg]⟩

/-- C3 witness: at the concrete reachable full roster `w4`,
`prize_pool = 1000000 × 4` and `treasury_fee = 4 × 100000 ≤ prize_pool`;
the join from `wBase` to `w1` added exactly `entry_fee` and
`entry_fee / 10`; the select step from `w4` to `s1` changed neither. -/
theorem C3_witness :
    (w4.game.prize_pool = w4.game.entry_fee * w4.players.length ∧
      w4.game.treasury_fee ≤ w4.game.prize_pool) ∧
    (w1.game.prize_pool = wBase.game.prize_pool + wBase.game.entry_fee) ∧
    poolsUnchanged w4 s1 :=
  ⟨⟨((C3_escrow_accounting.1 w4 w4_reachable)).2.1,
    ((C3_escrow_accounting.1 w4 w4_reachable)).2.2.2⟩,
   (C3_escrow_accounting.2.1 10 1 "a" wBase w1 (by decide)).1,
   C3_escrow_accounting.2.2.1 1 1 w4 s1 (by decide)⟩

/-- C10: `TreasuryState.total_distributed` is never written: `initialize`
leaves it at the zero-initialised `0` (writing only the other fields),
`complete_game` adds the game's fee to `total_collected` and
`pending_withdrawal` only, `withdraw_treasury` decrements
`pending_withdrawal` only, and every other operation leaves the treasury
record unchanged; hence `total_distributed = 0` in every reachable world,
and under `total_distributed = 0` the treasury invariant
`pending_withdrawal ≤ total_collected − total_distributed` is equivalent to
`pending_withdrawal ≤ total_collected`. -/
theorem C10_total_distributed_never_written :
    (∀ a fp t, init_treasury a fp = Except.ok t →
      t.total_distributed = 0 ∧ t.total_collected = 0 ∧ t.pending_withdrawal = 0) ∧
    (∀ a now w w', complete_game a now w = Except.ok w' →
      w'.treasury.total_distributed = w.treasury.total_distributed ∧
      w'.treasury.total_collected = w.treasury.total_collected + w.game.treasury_fee ∧
      w'.treasury.pending_withdrawal = w.treasury.pending_withdrawal + w.game.treasury_fee) ∧
    (∀ a amt w w', withdraw_treasury a amt w = Except.ok w' →
      w'.treasury.total_distributed = w.treasury.total_distributed ∧
      w'.treasury.total_collected = w.treasury.total_collected ∧
      w'.treasury.pending_withdrawal < w.treasury.pending_withdrawal) ∧
    (∀ now wallet tid w w', join_game now wallet tid w = Except.ok w' →
      w'.treasury = w.treasury) ∧
    (∀ wallet n w w', select_number wallet n w = Except.ok w' → w'.treasury = w.treasury) ∧
    (∀ a w w', start_game a w = Except.ok w' → w'.treasury = w.treasury) ∧
    (∀ o r rv pf now w w', submit_vrf o r rv pf now w = Except.ok w' →
      w'.treasury = w.treasury) ∧
    (∀ r w w', request_orao_vrf r w = Except.ok w' → w'.treasury = w.treasury) ∧
    (∀ r ov now w w', fulfill_orao_vrf r ov now w = Except.ok w' →
      w'.treasury = w.treasury) ∧
    (∀ a r w w', process_elimination a r w = Except.ok w' → w'.treasury = w.treasury) ∧
    (∀ wallet w w', claim_prize wallet w = Except.ok w' → w'.treasury = w.treasury) ∧
    (∀ wallet w w', request_refund wallet w = Except.ok w' → w'.treasury = w.treasury) ∧
    (∀ a reason now w w', cancel_game a reason now w = Except.ok w' →
      w'.treasury = w.treasury) ∧
    (∀ w, Reachable w → w.treasury.total_distributed = 0) ∧
    (∀ t : TreasuryState, t.total_distributed = 0 →
      (t.pending_withdrawal ≤ t.total_collected - t.total_distributed ↔
        t.pending_withdrawal ≤ t.total_collected)) := by
  refine ⟨?_, ?_, ?_, ?_, ?_, ?_, ?_, ?_, ?_, ?_, ?_, ?_, ?_, ?_, ?_⟩
  · intro a fp t h
    obtain ⟨-, h1, h2, h3, -⟩ := init_treasury_ok h
    exact ⟨h2, h1, h3⟩
  · intro a now w w' h
    obtain ⟨-, -, -, -, -, -, -, -, -, -, -, -, -, -, -, -, -, -, htc, hpw, htd⟩ :=
      complete_game_ok h
    exact ⟨htd, htc, hpw⟩
  · intro a amt w w' h
    obtain ⟨-, -, -, htc, htd, hpw⟩ := withdraw_treasury_ok h
    exact ⟨htd, htc, hpw⟩
  · intro now wallet tid w w' h
    exact (join_game_ok h).2.2.2.2.2.2.2.2.2.2.2.2.2
  · intro wallet n w w' h
    exact (select_number_ok h).2.2.2
  · intro a w w' h
    exact (start_game_ok h).2.2.2.2.2.2.2.2.2.2.2
  · intro o r rv pf now w w' h
    exact (submit_vrf_ok h).2.2.2.2.2.2.2.2.2.2.2.2.2
  · intro r w w' h
    exact (request_orao_vrf_ok h).2.2.2.2.2.2.2.2.2.2.2.2
  · intro r ov now w w' h
    exact (fulfill_orao_vrf_ok h).2.2.2.2.2.2.2.2.2.2.2.2.2.2
  · intro a r w w' h
    exact (process_elimination_ok h).2.2.2.2.2
  · intro wallet w w' h
    exact (claim_prize_ok h).2.2.2.2
  · intro wallet w w' h
    exact (request_refund_ok h).2.2.2.2
  · intro a reason now w w' h
    exact (cancel_game_ok h).2.2.2.2.2.2.2.2.2.2.2.2.1
  · intro w hw
    exact (reachable_worldInv hw).2.2.2.2.2.2
  · intro t htd
    rw [htd]
    simp

/-- C10 witness: the concrete settlement `wE → wD` moved `400000` into
`total_collected`/`pending_withdrawal` while `total_distributed` stayed `0`,
and at the reachable world `wD` the invariant reduction holds. -/
theorem C10_witness :
    wD.treasury.total_distributed = wE.treasury.total_distributed ∧
    wD.treasury.total_distributed = 0 ∧
    (wD.treasury.pending_withdrawal ≤
        wD.treasury.total_collected - wD.treasury.total_distributed ↔
      wD.treasury.pending_withdrawal ≤ wD.treasury.total_collected) :=
  ⟨(C10_total_distributed_never_written.2.1 5 200 wE wD (by decide)).1,
   C10_total_distributed_never_written.2.2.2.2.2.2.2.2.2.2.2.2.2.1 wD wD_reachable,
   C10_total_distributed_never_written.2.2.2.2.2.2.2.2.2.2.2.2.2.2 wD.treasury
     (C10_total_distributed_never_written.2.2.2.2.2.2.2.2.2.2.2.2.2.1 wD wD_reachable)⟩

/-- C1 counterexample: in the concrete reachable world `wE` the game is in
`Playing` with 3 active players and `winner_count = 1` — strictly more
remaining active players than `winner_count` — yet `complete_game`
succeeds: the handler has no `remaining ≤ winner_count` guard (it only
rejects an empty active set, `NoWinnersFound`), so the claim's rejection
does not happen. -/
theorem C1_counterexample :
    Reachable wE ∧
    wE.game.state = GameStatus.Playing ∧
    wE.game.winner_count < activeCount wE.players ∧
    (complete_game 5 200 wE).isOk = true :=
  ⟨wE_reachable, by decide, by decide, by decide⟩

/-- C1 (amended): `complete_game` succeeds only in `Playing` and only with at
least one active (non-eliminated) player; conversely, in `Playing` with at
least one active player it succeeds whenever the authority signs, the
winner count is positive and the checked arithmetic and the fee transfer go
through — in particular also when the remaining active players exceed
`winner_count` (no `remaining ≤ winner_count` guard exists; only the first
`winner_count` active players are then marked winners, per C4). -/
theorem C1_amended :
    (∀ a now w w', complete_game a now w = Except.ok w' →
      w.game.state = GameStatus.Playing ∧ 0 < activeCount w.players) ∧
    (∀ a now w, a = w.game.authority → w.game.state = GameStatus.Playing →
      0 < activeCount w.players → 0 < w.game.winner_count →
      w.game.treasury_fee ≤ w.game.prize_pool →
      w.game.treasury_fee ≤ w.escrow →
      w.treasury.total_collected + w.game.treasury_fee < u64Lim →
      w.treasury.pending_withdrawal + w.game.treasury_fee < u64Lim →
      (complete_game a now w).isOk = true) := by
  constructor
  · intro a now w w' h
    obtain ⟨-, hst, hact, -⟩ := complete_game_ok h
    exact ⟨hst, hact⟩
  · intro a now w ha hst hact hwc hfp hfe hc1 hc2
    cases hres : complete_game a now w with
    | ok w' => rfl
    | error e =>
      exfalso
      unfold complete_game at hres
      dsimp only at hres
      repeat' split at hres
      all_goals try exact Except.noConfusion hres
      all_goals simp_all [checked_sub, checked_add, checked_div, activeCount, Nat.min_def]
      all_goals first
        | omega
        | (split_ifs at * <;> omega)

/-- C1 witness for the amended theorem, at the concrete world `wE`: all the
side conditions hold there and `activeCount = 3 > winner_count = 1`, and the
settlement succeeds. -/
theorem C1_witness : (complete_game 5 200 wE).isOk = true :=
  C1_amended.2 5 200 wE (by decide) (by decide) (by decide) (by decide) (by decide)
    (by decide) (by decide) (by decide)

/-- C8: the failing input, concretely.  `wReq` is the reachable world in
which a randomness request is pending (`vrf_request_pending = true`,
`pending_round = 1 = current_round + 1`, not yet fulfilled).  A second
`request_orao_vrf` for the same game is *not* rejected: the handler checks
only the phase and `round == current_round + 1` and never reads
`vrf_request_pending` (the declared error `VrfRequestAlreadyPending` is
raised nowhere), so the call succeeds and re-issues the oracle request,
overwriting the pending round (here with the same value, so the result
equals `wReq` itself) — where the claim requires an already-requested
rejection. -/
theorem C8_duplicate_request_accepted :
    Reachable wReq ∧
    wReq.game.vrf_request_pending = true ∧
    wReq.game.pending_round = wReq.game.current_round + 1 ∧
    request_orao_vrf 1 wReq = Except.ok wReq :=
  ⟨wReq_reachable, by decide, by decide, by decide⟩

/-- A `NumberSelection` state in which the number `5` is held only by an
eliminated player (wallet `1`, eliminated in round 1) while wallet `2` is
active and has not yet selected. -/
def wSel : World :=
  { game := { authority := 5, entry_fee := 10, max_players := 4, winner_count := 1
              state := GameStatus.NumberSelection, prize_pool := 20, treasury_fee := 2
              number_range := { min := 1, max := 10 }, created_at := 0
              started_at := some 0, completed_at := none, payment_deadline := 100
              current_round := 1, drawn_numbers := [5], vrf_oracle := 6
              vrf_request_pending := false, pending_round := 0 }
    players :=
      [ { wallet := 1, telegram_id := "a", selected_number := some 5
          eliminated_round := some 1, is_winner := false, prize_claimed := false
          prize_amount := 0, joined_at := 0 },
        { wallet := 2, telegram_id := "b", selected_number := none
          eliminated_round := none, is_winner := false, prize_claimed := false
          prize_amount := 0, joined_at := 0 } ]
    treasury := { authority := 7, total_collected := 0, total_distributed := 0
                  pending_withdrawal := 0, fee_percentage := 10 }
    vrf_results := [], escrow := 20, treasury_balance := 0 }

/-- C5 counterexample: in `wSel` the caller (wallet `2`) is active with no
selection, `5` is in range, and `5` is held only by an eliminated player —
the claim says this selection succeeds, but `select_number` rejects it with
`NumberAlreadyTaken`: the taken-number scan filters on `p.wallet != caller`
only, not on elimination status. -/
theorem C5_counterexample :
    wSel.game.state = GameStatus.NumberSelection ∧
    (∀ q ∈ wSel.players, q.selected_number = some 5 → q.eliminated_round ≠ none) ∧
    wSel.players.find? (fun q => q.wallet == 2) =
      some { wallet := 2, telegram_id := "b", selected_number := none
             eliminated_round := none, is_winner := false, prize_claimed := false
             prize_amount := 0, joined_at := 0 } ∧
    select_number 2 5 wSel = Except.error LotteryError.NumberAlreadyTaken := by decide

/-- C5 (amended): `select_number` succeeds exactly in `NumberSelection`, with
the number inside `[range.min, range.max]`, the caller present in the roster
with no prior selection and not eliminated, and no *other roster member at
all* — active or eliminated — holding the number; in particular a number
held only by an eliminated player is rejected with `NumberAlreadyTaken`
(the code's taken-scan does not restrict to active players). -/
theorem C5_select_number_amended :
    (∀ wallet n w w', select_number wallet n w = Except.ok w' →
      w.game.state = GameStatus.NumberSelection ∧
      w.game.number_range.min ≤ n ∧ n ≤ w.game.number_range.max ∧
      (∃ p, w.players.find? (fun q => q.wallet == wallet) = some p ∧
        p.selected_number = none ∧ p.eliminated_round = none) ∧
      (∀ q ∈ w.players, q.wallet ≠ wallet → q.selected_number ≠ some n)) ∧
    (∀ wallet n w p,
      w.game.state = GameStatus.NumberSelection →
      w.game.number_range.min ≤ n → n ≤ w.game.number_range.max →
      w.players.find? (fun q => q.wallet == wallet) = some p →
      p.selected_number = none → p.eliminated_round = none →
      (∃ q ∈ w.players, q.wallet ≠ wallet ∧ q.selected_number = some n) →
      select_number wallet n w = Except.error LotteryError.NumberAlreadyTaken) := by
  constructor
  · intro wallet n w w' h
    unfold select_number at h
    split at h
    · exact Except.noConfusion h
    split at h
    · exact Except.noConfusion h
    cases hfind : w.players.find? (fun q => q.wallet == wallet) with
    | none => rw [hfind] at h; exact Except.noConfusion h
    | some p =>
      rw [hfind] at h
      dsimp only at h
      split at h
      · exact Except.noConfusion h
      split at h
      · exact Except.noConfusion h
      split at h
      · exact Except.noConfusion h
      rename_i hst0 hrange0 hsel0 helim0 hany
      refine ⟨by simp_all, by simp_all, by simp_all, ⟨p, rfl, ?_, ?_⟩, ?_⟩
      · simpa [Option.not_isSome_iff_eq_none] using hsel0
      · simpa [Option.not_isSome_iff_eq_none] using helim0
      · intro q hq hqw hqn
        exact hany (List.any_eq_true.mpr ⟨q, hq, by simp [hqn, hqw]⟩)
  · intro wallet n w p hst hmin hmax hfind hsel helim hex
    obtain ⟨q, hq, hqw, hqn⟩ := hex
    unfold select_number
    rw [if_neg (by simp [hst]), if_neg (by simp [hmin, hmax]), hfind]
    dsimp only
    rw [if_neg (by simp [hsel]), if_neg (by simp [helim]),
      if_pos (List.any_eq_true.mpr ⟨q, hq, by simp [hqn, hqw]⟩)]

/-- C5 witness for the amended theorem: the successful concrete selection
`w4 → s1` satisfies the characterisation, and in `wSel` the rejection fires
even though the holder of `5` is eliminated. -/
theorem C5_witness :
    (w4.game.state = GameStatus.NumberSelection ∧
      w4.game.number_range.min ≤ 1 ∧ (1 : Nat) ≤ w4.game.number_range.max ∧
      (∃ p, w4.players.find? (fun q => q.wallet == 1) = some p ∧
        p.selected_number = none ∧ p.eliminated_round = none) ∧
      (∀ q ∈ w4.players, q.wallet ≠ 1 → q.selected_number ≠ some 1)) ∧
    select_number 2 5 wSel = Except.error LotteryError.NumberAlreadyTaken :=
  ⟨C5_select_number_amended.1 1 1 w4 s1 (by decide),
   C5_select_number_amended.2 2 5 wSel
     { wallet := 2, telegram_id := "b", selected_number := none
       eliminated_round := none, is_winner := false, prize_claimed := false
       prize_amount := 0, joined_at := 0 }
     (by decide) (by decide) (by decide) (by decide) (by decide) (by decide)
     ⟨{ wallet := 1, telegram_id := "a", selected_number := some 5
        eliminated_round := some 1, is_winner := false, prize_claimed := false
        prize_amount := 0, joined_at := 0 }, by decide, by decide, by decide⟩⟩

theorem find?_updateFirst {pr : α → Bool} {f : α → α} {l : List α} {x : α}
    (hx : l.find? pr = some x) (hf : pr (f x) = true) :
    (updateFirst pr f l).find? pr = some (f x) := by
  induction l with
  | nil => cases hx
  | cons a as ih =>
    unfold updateFirst
    by_cases hp : pr a
    · rw [List.find?_cons_of_pos _ hp] at hx
      injection hx with hx
      subst hx
      rw [if_pos hp, List.find?_cons_of_pos _ hf]
    · rw [List.find?_cons_of_neg _ hp] at hx
      rw [if_neg hp, List.find?_cons_of_neg _ hp]
      exact ih hx

/-- C7: `claim_prize` is valid only in `Distributing`, fails when the caller
is not a winner, when the prize is already claimed, or when the prize amount
is zero (each with its specific error); on success it transfers exactly
`prize_amount` out of escrow and marks the prize claimed, so a second call
by the same winner fails with `PrizeAlreadyClaimed` — the balance moves only
once. -/
theorem C7_claim_prize :
    (∀ wallet w w', claim_prize wallet w = Except.ok w' →
      w.game.state = GameStatus.Distributing) ∧
    (∀ wallet w, w.game.state ≠ GameStatus.Distributing →
      claim_prize wallet w = Except.error LotteryError.InvalidGameState) ∧
    (∀ wallet w p, w.game.state = GameStatus.Distributing →
      w.players.find? (fun q => q.wallet == wallet) = some p →
      (p.is_winner = false → claim_prize wallet w = Except.error LotteryError.NotAWinner) ∧
      (p.is_winner = true → p.prize_claimed = true →
        claim_prize wallet w = Except.error LotteryError.PrizeAlreadyClaimed) ∧
      (p.is_winner = true → p.prize_claimed = false → p.prize_amount = 0 →
        claim_prize wallet w = Except.error LotteryError.NoPrizeToCliam)) ∧
    (∀ wallet w w', claim_prize wallet w = Except.ok w' →
      ∃ p, w.players.find? (fun q => q.wallet == wallet) = some p ∧
        p.is_winner = true ∧ p.prize_claimed = false ∧ 0 < p.prize_amount ∧
        p.prize_amount ≤ w.escrow ∧ w'.escrow = w.escrow - p.prize_amount ∧
        claim_prize wallet w' = Except.error LotteryError.PrizeAlreadyClaimed) := by
  refine ⟨?_, ?_, ?_, ?_⟩
  · intro wallet w w' h
    exact (claim_prize_ok h).1
  · intro wallet w hst
    unfold claim_prize
    rw [if_pos hst]
  · intro wallet w p hst hfind
    refine ⟨?_, ?_, ?_⟩
    · intro hnw
      unfold claim_prize
      rw [if_neg (by simp [hst]), hfind]
      dsimp only
      rw [if_pos (by simp [hnw])]
    · intro hwin hcl
      unfold claim_prize
      rw [if_neg (by simp [hst]), hfind]
      dsimp only
      rw [if_neg (by simp [hwin]), if_pos hcl]
    · intro hwin hcl hz
      unfold claim_prize
      rw [if_neg (by simp [hst]), hfind]
      dsimp only
      rw [if_neg (by simp [hwin]), if_neg (by simp [hcl]), if_pos (by simp [hz])]
  · intro wallet w w' h
    have hok := claim_prize_ok h
    unfold claim_prize at h
    split at h
    · exact Except.noConfusion h
    cases hfind : w.players.find? (fun q => q.wallet == wallet) with
    | none => rw [hfind] at h; exact Except.noConfusion h
    | some p =>
      rw [hfind] at h
      dsimp only at h
      split at h
      · exact Except.noConfusion h
      split at h
      · exact Except.noConfusion h
      split at h
      · exact Except.noConfusion h
      split at h
      · exact Except.noConfusion h
      rename_i hwin hcl hz hesc
      injection h with h
      subst h
      have hf : (fun q => q.wallet == wallet)
          ({ p with prize_claimed := true } : Player) = true := by
        simpa using List.find?_some hfind
      have hfind' := find?_updateFirst
        (f := fun q => { q with prize_claimed := true }) hfind hf
      refine ⟨p, rfl, ?_, ?_, by omega, by omega, by simp, ?_⟩
      · simpa using hwin
      · simpa using hcl
      · unfold claim_prize
        rw [if_neg (by simp [hok.1]), hfind']
        dsimp only
        rw [if_neg (by simp_all), if_pos (by simp)]

/-- C7 witness: in the concrete reachable `Distributing` world `wD`, wallet
`1` is the winner; the first claim succeeds (`wD → wC1`) and satisfies the
characterisation, a claim in `Playing` (`wP`) is rejected with
`InvalidGameState`, and by the theorem the second claim of wallet `1` fails
with `PrizeAlreadyClaimed`. -/
theorem C7_witness :
    wD.game.state = GameStatus.Distributing ∧
    claim_prize 3 wP = Except.error LotteryError.InvalidGameState :=
  ⟨C7_claim_prize.1 1 wD wC1 (by decide),
   C7_claim_prize.2.1 3 wP (by decide)⟩

/-- C9: authority-signed `cancel_game` with a well-formed reason (≤ 200
characters) from `Created`/`Joining` succeeds unconditionally on an empty
roster, and on a non-empty roster (with the `entry_fee * roster` event
product in `u64` range) succeeds exactly when the payment deadline has
passed; from `Distributing`, `Completed` or `Cancelled` it is always
rejected; on success the state becomes `Cancelled`, the cancellation time is
recorded in `completed_at`, and no funds move (roster, escrow, treasury
balances and the pool/fee accumulators are untouched). -/
theorem C9_cancel_game :
    (∀ a reason now w,
      a = w.game.authority → reason.length ≤ 200 →
      (w.game.state = GameStatus.Created ∨ w.game.state = GameStatus.Joining) →
      w.players = [] →
      (cancel_game a reason now w).isOk = true) ∧
    (∀ a reason now w,
      a = w.game.authority → reason.length ≤ 200 →
      (w.game.state = GameStatus.Created ∨ w.game.state = GameStatus.Joining) →
      w.players ≠ [] →
      w.game.entry_fee * w.players.length < u64Lim →
      ((cancel_game a reason now w).isOk = true ↔ w.game.payment_deadline < now)) ∧
    (∀ a reason now w,
      (w.game.state = GameStatus.Distributing ∨ w.game.state = GameStatus.Completed ∨
        w.game.state = GameStatus.Cancelled) →
      (cancel_game a reason now w).isOk = false) ∧
    (∀ a reason now w w', cancel_game a reason now w = Except.ok w' →
      w'.game.state = GameStatus.Cancelled ∧ w'.game.completed_at = some now ∧
      w'.players = w.players ∧ w'.escrow = w.escrow ∧
      w'.treasury_balance = w.treasury_balance ∧ w'.treasury = w.treasury ∧
      w'.game.prize_pool = w.game.prize_pool ∧
      w'.game.treasury_fee = w.game.treasury_fee) := by
  refine ⟨?_, ?_, ?_, ?_⟩
  · intro a reason now w ha hreason hst hpl
    cases hres : cancel_game a reason now w with
    | ok w' => rfl
    | error e =>
      exfalso
      unfold cancel_game at hres
      dsimp only at hres
      rcases hst with hst | hst <;> rw [hst] at hres
      all_goals repeat' (first | split at hres | dsimp only at hres)
      all_goals try exact Except.noConfusion hres
      all_goals simp_all [u64Lim]
  · intro a reason now w ha hreason hst hpl hmul
    constructor
    · intro hok
      obtain ⟨w', hres⟩ : ∃ w', cancel_game a reason now w = Except.ok w' := by
        cases hres : cancel_game a reason now w with
        | ok w' => exact ⟨w', rfl⟩
        | error e => rw [hres] at hok; exact Bool.noConfusion hok
      unfold cancel_game at hres
      dsimp only at hres
      rcases hst with hst | hst <;> rw [hst] at hres
      all_goals repeat' (first | split at hres | dsimp only at hres)
      all_goals try exact Except.noConfusion hres
      all_goals simp_all
    · intro hdl
      cases hres : cancel_game a reason now w with
      | ok w' => rfl
      | error e =>
        exfalso
        unfold cancel_game at hres
        dsimp only at hres
        rcases hst with hst | hst <;> rw [hst] at hres
        all_goals repeat' (first | split at hres | dsimp only at hres)
        all_goals try exact Except.noConfusion hres
        all_goals simp_all [u64Lim]
  · intro a reason now w hst
    cases hres : cancel_game a reason now w with
    | error e => rfl
    | ok w' =>
      exfalso
      unfold cancel_game at hres
      dsimp only at hres
      rcases hst with hst | hst | hst <;> rw [hst] at hres
      all_goals repeat' (first | split at hres | dsimp only at hres)
      all_goals try exact Except.noConfusion hres
      all_goals simp_all
  · intro a reason now w w' h
    obtain ⟨hpl, hst, hca, hpool, htf, -, -, -, -, -, -, -, htre, hesc, htb⟩ :=
      cancel_game_ok h
    exact ⟨hst, hca, hpl, hesc, htb, htre, hpool, htf⟩

/-- C9 witness: cancelling the concrete empty-roster world `wBase` at time
10 succeeds; with one joined player (`w1`) before the deadline the iff gives
failure at time 10 and success at 3601; from `Distributing` (`wD`) it is
rejected; and the successful empty-roster cancellation only flips the state
and timestamp. -/
theorem C9_witness :
    (cancel_game 5 "why" 10 wBase).isOk = true ∧
    ((cancel_game 5 "why" 10 w1).isOk = true ↔ w1.game.payment_deadline < 10) ∧
    ((cancel_game 5 "why" 3601 w1).isOk = true ↔ w1.game.payment_deadline < 3601) ∧
    (cancel_game 5 "why" 10 wD).isOk = false :=
  ⟨C9_cancel_game.1 5 "why" 10 wBase (by decide) (by decide) (Or.inr (by decide))
     (by decide),
   C9_cancel_game.2.1 5 "why" 10 w1 (by decide) (by decide) (Or.inr (by decide))
     (by decide) (by decide),
   C9_cancel_game.2.1 5 "why" 3601 w1 (by decide) (by decide) (Or.inr (by decide))
     (by decide) (by decide),
   C9_cancel_game.2.2.1 5 "why" 10 wD (Or.inl (by decide))⟩

end TgLottery
